import Mathlib

/-!
Shallow embedding of the DataViewer core (dataviewer/app.py and
dataviewer/data_indexing.py): scalar values, the structured filter
translation (`Filter.get_filter`), the search pipeline, the facet cache,
column selection, dataset streaming and the cache indexer, together with
theorems settling the specification claims about them.
-/

namespace DataViewer

/-- Scalar values flowing through filters and rows.  Python `None` is `null`;
Python floats and decimals are modelled as rationals (always finite; the
non-finite float sanitization in the source is therefore the identity here). -/
inductive Scalar where
  | null
  | bool (b : Bool)
  | int (n : Int)
  | rat (q : Rat)
  | str (s : String)
deriving DecidableEq, Repr

/-- The `CoercibleValue` type alias of app.py: a scalar or a list of scalars. -/
inductive CoVal where
  | scalar (v : Scalar)
  | list (xs : List Scalar)
deriving DecidableEq, Repr

/-- Column data types distinguished by `Filter._coerce_value` (ibis
`dt.Boolean`, `dt.Integer`, `dt.Floating`, `dt.Decimal`, anything else). -/
inductive DType where
  | boolean
  | integer
  | floating
  | decimal
  | string
  | other
deriving DecidableEq, Repr

/-- Errors raised by the embedded code.  The Python source raises
`ValueError` / `AssertionError` / `KeyError` with messages; the data the
messages embed (for example the offending column-name sets) is carried
structurally here so that theorems can speak about it. -/
inductive Err where
  | columnNotFound (column : String)
  | invalidColumnRef
  | intParseError (value : String)
  | floatParseError (value : String)
  | betweenArity
  | nonePredicate
  | invalidInclude (names : Finset String)
  | invalidExclude (names : Finset String)
  | conflictingWindow
  | unsupportedStreamFormat
  | unsupportedFormat (path : String)
  | missingDatasetPath
  | missingCachePath
deriving DecidableEq

deriving instance DecidableEq for Except

/-- Split a character list at every occurrence of a separator character
(the pieces keep their order; separators are dropped). -/
def splitOnChar (sep : Char) : List Char → List (List Char)
  | [] => [[]]
  | c :: cs =>
    let r := splitOnChar sep cs
    if c = sep then [] :: r
    else
      match r with
      | [] => [[c]]
      | h :: t => (c :: h) :: t

/-- Break a character list at the first occurrence of the three-character
separator `://`, returning the part before and the part after; `none` when
the separator does not occur. -/
def breakOnSchemeSep : List Char → Option (List Char × List Char)
  | [] => none
  | ':' :: '/' :: '/' :: rest => some ([], rest)
  | c :: cs => (breakOnSchemeSep cs).map (fun pr => (c :: pr.1, pr.2))

/-- Lower-casing of a string, character by character. -/
def strLower (s : String) : String :=
  String.mk (s.data.map Char.toLower)

/-- Python `repr` of a scalar, as used when a list value is stringified. -/
def pyReprScalar : Scalar → String
  | .null => "None"
  | .bool true => "True"
  | .bool false => "False"
  | .int n => toString n
  | .rat q => toString q
  | .str s => "'" ++ s ++ "'"

/-- Python `str(value)` on a `CoercibleValue`: a bare string stays itself,
any other scalar gets its repr, and a list is rendered with brackets and
comma separators.  The essential property is that the result is always a
string (never a list). -/
def pyStr : CoVal → String
  | .scalar (.str s) => s
  | .scalar v => pyReprScalar v
  | .list xs => "[" ++ String.intercalate ", " (xs.map pyReprScalar) ++ "]"

/-- Digits of a decimal literal to a natural number; `none` when empty or a
non-digit appears. -/
def decDigits? (cs : List Char) : Option Nat :=
  if cs = [] then none
  else
    cs.foldl
      (fun acc c =>
        match acc with
        | none => none
        | some a => if c.isDigit then some (10 * a + (c.toNat - 48)) else none)
      (some 0)

/-- Python `int(value)` on a string: optional sign followed by digits
(the further spellings `int` accepts — surrounding whitespace, underscore
separators — are outside the model; no claim exercises them). -/
def pyInt? (s : String) : Option Int :=
  match s.data with
  | '-' :: rest => (decDigits? rest).map (fun n => -(n : Int))
  | '+' :: rest => (decDigits? rest).map (fun n => (n : Int))
  | cs => (decDigits? cs).map (fun n => (n : Int))

/-- Python `float(value)` on a string, modelled over the rationals:
optional surrounding spaces, an optional sign, an integer part and an
optional fractional part.  Exotic accepted spellings (exponents, `inf`,
`nan`) are outside the model; no claim exercises them. -/
def pyFloat? (s : String) : Option Rat :=
  let cs := ((s.data.dropWhile (fun c => c = ' ')).reverse.dropWhile (fun c => c = ' ')).reverse
  let sign : Rat := match cs with | '-' :: _ => -1 | _ => 1
  let body := match cs with | '-' :: rest => rest | '+' :: rest => rest | rest => rest
  match splitOnChar '.' body with
  | [w] => (decDigits? w).map (fun n => sign * (n : Rat))
  | [w, f] =>
    if w = [] ∧ f = [] then none
    else
      match (if w = [] then some 0 else decDigits? w),
            (if f = [] then some 0 else decDigits? f) with
      | some a, some b => some (sign * ((a : Rat) + (b : Rat) / ((10 : Rat) ^ f.length)))
      | _, _ => none
  | _ => none

/-- Embeds `Filter._coerce_value` of app.py: coerce a string to the target
column type.  Boolean columns test case-insensitive membership in
`("true", "1", "yes")`; integer and floating/decimal columns parse the
literal (raising `ValueError` on failure); all other types pass the string
through. -/
def coerceValue (value : String) (t : DType) : Except Err Scalar :=
  match t with
  | .boolean => .ok (.bool (["true", "1", "yes"].contains (strLower value)))
  | .integer =>
    match pyInt? value with
    | some n => .ok (.int n)
    | none => .error (.intParseError value)
  | .floating | .decimal =>
    match pyFloat? value with
    | some q => .ok (.rat q)
    | none => .error (.floatParseError value)
  | _ => .ok (.str value)

/-- The `Operator` enum of app.py. -/
inductive Operator where
  | gt
  | lt
  | eq
  | ne
  | ge
  | le
  | isin
  | notin
  | between
deriving DecidableEq, Repr

/-- Operators whose branch in `get_filter` expects a list value. -/
def Operator.isListOp : Operator → Bool
  | .isin | .notin | .between => true
  | _ => false

/-- The right-hand side of a translated comparison: a literal or a column
reference (`is_column=True`). -/
inductive Operand where
  | lit (v : Scalar)
  | column (name : String)
deriving DecidableEq, Repr

/-- Scalar comparison operators of the translated query plan. -/
inductive CmpOp where
  | gt
  | lt
  | eq
  | ne
  | ge
  | le
deriving DecidableEq, Repr

/-- Translated boolean predicate (the ibis `BooleanColumn` expression built
by `get_filter`). -/
inductive Pred where
  | cmp (op : CmpOp) (column : String) (rhs : Operand)
  | isin (column : String) (values : List Scalar)
  | notin (column : String) (values : List Scalar)
  | between (column : String) (lo hi : Scalar)
deriving DecidableEq, Repr

/-- The `Filter` request model of app.py. -/
structure Filter where
  column : String
  operator : Operator
  value : CoVal
  is_column : Bool := false
deriving DecidableEq, Repr

/-- The resolved `value` local of `get_filter`: a column reference, a scalar,
or a list. -/
inductive RVal where
  | colref (name : String)
  | scalar (v : Scalar)
  | list (xs : List Scalar)
deriving DecidableEq, Repr

/-- Resolution of `value` at the top of `get_filter`:
`value = table[self.value] if self.is_column else self.value`, then
`if coerce_types and not self.is_column: value = _coerce_value(str(value), col.type())`.
A column reference must name a column (indexing the table with a non-string
raises); no coercion is attempted for column references. -/
def Filter.resolveValue (f : Filter) (t : DType) (coerce_types : Bool) : Except Err RVal :=
  if f.is_column then
    match f.value with
    | .scalar (.str name) => .ok (.colref name)
    | _ => .error .invalidColumnRef
  else if coerce_types then
    (coerceValue (pyStr f.value) t).map .scalar
  else
    match f.value with
    | .scalar v => .ok (.scalar v)
    | .list xs => .ok (.list xs)

/-- The scalar-operator dispatch chain of `get_filter` (the
`if not isinstance(value, list)` branch).  When the operator is one of the
list operators none of the `elif` arms match and the Python function falls
off the end of the branch, returning `None`: modelled as `.ok none`. -/
def scalarDispatch (f : Filter) (rhs : Operand) : Except Err (Option Pred) :=
  match f.operator with
  | .gt => .ok (some (.cmp .gt f.column rhs))
  | .lt => .ok (some (.cmp .lt f.column rhs))
  | .eq => .ok (some (.cmp .eq f.column rhs))
  | .ne => .ok (some (.cmp .ne f.column rhs))
  | .ge => .ok (some (.cmp .ge f.column rhs))
  | .le => .ok (some (.cmp .le f.column rhs))
  | _ => .ok none

/-- Embeds `Filter.get_filter` of app.py.  `schema` models `table[...]`
column lookup (a missing column raises).  Control flow mirrors the source:
a non-list resolved value dispatches over the scalar operators, a list
value dispatches over `in` / `not in` / `between` (the latter asserting
exactly two elements), and an operator that does not match its branch's
chain makes the function return Python `None` (`.ok none`); the trailing
`else: raise ValueError` of the source is unreachable because the two
`isinstance` tests are complementary. -/
def Filter.get_filter (f : Filter) (schema : String → Option DType) (coerce_types : Bool) :
    Except Err (Option Pred) :=
  match schema f.column with
  | none => .error (.columnNotFound f.column)
  | some t =>
    match f.resolveValue t coerce_types with
    | .error e => .error e
    | .ok (.list xs) =>
      match f.operator with
      | .isin => .ok (some (.isin f.column xs))
      | .notin => .ok (some (.notin f.column xs))
      | .between =>
        match xs with
        | [lo, hi] => .ok (some (.between f.column lo hi))
        | _ => .error .betweenArity
      | _ => .ok none
    | .ok (.colref name) => scalarDispatch f (.column name)
    | .ok (.scalar v) => scalarDispatch f (.lit v)

/-- A table row: an association of column names to scalar values. -/
abbrev Row := List (String × Scalar)

/-- Value of a column in a row (the claims only exercise rows that carry
every referenced column; a missing column reads as null). -/
def rowGet (r : Row) (c : String) : Scalar :=
  match r.find? (fun kv => kv.1 == c) with
  | some kv => kv.2
  | none => .null

/-- Three-way comparison through a linear order. -/
def cmpVia {α : Type} [LinearOrder α] (a b : α) : Ordering :=
  if a < b then .lt else if a = b then .eq else .gt

/-- Comparison of scalars as the backing SQL engine orders them: values of
the same kind compare by their natural order; null or cross-kind
comparisons have no defined ordering (`none`), and a predicate over them
matches no row (SQL three-valued logic collapses unknown to false at the
filter boundary). -/
def scalarCmp : Scalar → Scalar → Option Ordering
  | .int a, .int b => some (cmpVia a b)
  | .rat a, .rat b => some (cmpVia a b)
  | .str a, .str b => some (cmpVia a b)
  | .bool a, .bool b => some (cmpVia a b)
  | _, _ => none

/-- Non-strict scalar order as a boolean. -/
def scalarLe (a b : Scalar) : Bool :=
  match scalarCmp a b with
  | some .lt => true
  | some .eq => true
  | _ => false

/-- Scalar equality as the engine tests it (null never equals anything). -/
def scalarEqB (a b : Scalar) : Bool :=
  match scalarCmp a b with
  | some .eq => true
  | _ => false

/-- Value of a comparison operand in a row. -/
def evalOperand (r : Row) : Operand → Scalar
  | .lit v => v
  | .column name => rowGet r name

/-- Semantics of a scalar comparison operator. -/
def evalCmp (op : CmpOp) (x y : Scalar) : Bool :=
  match scalarCmp x y with
  | none => false
  | some o =>
    match op, o with
    | .gt, .gt => true
    | .lt, .lt => true
    | .eq, .eq => true
    | .ne, .lt => true
    | .ne, .gt => true
    | .ge, .gt => true
    | .ge, .eq => true
    | .le, .lt => true
    | .le, .eq => true
    | _, _ => false

/-- Row semantics of a translated predicate: `col.between(lo, hi)` is
inclusive on both ends, `isin` is membership, `notin` its negation. -/
def evalPred (p : Pred) (r : Row) : Bool :=
  match p with
  | .cmp op c rhs => evalCmp op (rowGet r c) (evalOperand r rhs)
  | .isin c vs => vs.any (fun v => scalarEqB (rowGet r c) v)
  | .notin c vs => !(vs.any (fun v => scalarEqB (rowGet r c) v))
  | .between c lo hi => scalarLe lo (rowGet r c) && scalarLe (rowGet r c) hi

/-- The `Sort` request model of app.py (`Sort` is a Lean keyword, hence the
name). -/
structure SortSpec where
  column : String
  descending : Bool := false
deriving DecidableEq, Repr

/-- Lexicographic row comparison along the listed sort keys, each direction
flipped when descending; incomparable keys tie. -/
def sortKeyCmp (sorts : List SortSpec) (a b : Row) : Ordering :=
  match sorts with
  | [] => .eq
  | s :: rest =>
    let o := (scalarCmp (rowGet a s.column) (rowGet b s.column)).getD .eq
    let o := if s.descending then o.swap else o
    match o with
    | .eq => sortKeyCmp rest a b
    | o => o

/-- Stable insertion into a sorted list. -/
def insertSorted (le : Row → Row → Bool) (x : Row) : List Row → List Row
  | [] => [x]
  | y :: ys => if le x y then x :: y :: ys else y :: insertSorted le x ys

/-- The engine's multi-key `order_by`, modelled as a stable insertion sort
under the lexicographic key order. -/
def sortRows (sorts : List SortSpec) (rows : List Row) : List Row :=
  rows.foldr (insertSorted (fun a b => sortKeyCmp sorts a b ≠ Ordering.gt)) []

/-- Apply `order_by` exactly when sort clauses exist
(`if sort_clauses: table = table.order_by(sort_clauses)`). -/
def applySorts (sorts : List SortSpec) (rows : List Row) : List Row :=
  if sorts.isEmpty then rows else sortRows sorts rows

/-- The `SearchRequest` model of app.py with its field defaults. -/
structure SearchRequest where
  page : Int := 0
  page_size : Int := 10
  filters : Option (List Filter) := none
  sorts : Option (List SortSpec) := none
  raw_query : Option String := none
  coerce_types : Bool := false
deriving DecidableEq, Repr

/-- Python truthiness of an optional string: `None` and the empty string are
falsy (this is the `if not request.raw_query` test of the search endpoint). -/
def strTruthy : Option String → Bool
  | none => false
  | some s => !(s == "")

/-- Translation of the structured filter list
(`[x.get_filter(table, coerce_types=...) for x in request.filters or []]`);
any raised error aborts the request. -/
def translateFilters (filters : List Filter) (schema : String → Option DType)
    (coerce_types : Bool) : Except Err (List (Option Pred)) :=
  filters.mapM (fun f => f.get_filter schema coerce_types)

/-- Building the sort clauses indexes the table by each sort column
(`table[x.column]`), which raises for a missing column. -/
def checkSortColumns (sorts : List SortSpec) (schema : String → Option DType) :
    Except Err Unit :=
  match sorts.find? (fun s => (schema s.column).isNone) with
  | some s => .error (.columnNotFound s.column)
  | none => .ok ()

/-- Passing a Python `None` in place of a predicate to `table.filter(...)`
is rejected by the backing query library; modelled as an error carrying no
predicate. -/
def forcePreds (clauses : List (Option Pred)) : Except Err (List Pred) :=
  clauses.mapM
    (fun c =>
      match c with
      | some p => Except.ok p
      | none => Except.error Err.nonePredicate)

/-- Embeds the `/api/search` endpoint body of app.py over a list-of-rows
table.  `rawExec` models `ibis.sql(...)`, the backing relational engine
executing a raw query string.  The structured path translates filters,
builds sort clauses, filters, takes the row count BEFORE sorting and
pagination, sorts, then applies `limit(page_size, offset=page*page_size)`.
The raw path executes the query and returns its rows and its own count,
without filters, sorts or pagination. -/
def search (req : SearchRequest) (rows : List Row) (schema : String → Option DType)
    (rawExec : String → List Row) : Except Err (List Row × Nat) :=
  if strTruthy req.raw_query then
    let t := rawExec (req.raw_query.getD "")
    .ok (t, t.length)
  else
    match translateFilters (req.filters.getD []) schema req.coerce_types with
    | .error e => .error e
    | .ok clauses =>
      match checkSortColumns (req.sorts.getD []) schema with
      | .error e => .error e
      | .ok _ =>
        match forcePreds clauses with
        | .error e => .error e
        | .ok preds =>
          let filtered :=
            if preds.isEmpty then rows
            else rows.filter (fun r => preds.all (fun p => evalPred p r))
          let result_size := filtered.length
          let sorted := applySorts (req.sorts.getD []) filtered
          let paged := (sorted.drop (req.page * req.page_size).toNat).take req.page_size.toNat
          .ok (paged, result_size)

/-- One facet value of the `/api/facets` response. -/
structure FacetValue where
  value : Scalar
  count : Nat
deriving DecidableEq, Repr

/-- One facet of the `/api/facets` response. -/
structure Facet where
  column : String
  values : List FacetValue
deriving DecidableEq, Repr

/-- Distinct-value counts for one column:
`table.group_by(c).aggregate(count=table[c].count())`.  The aggregate counts
non-null values of the column within each group, so the null group reports
zero. -/
def facetCounts (rows : List Row) (c : String) : List FacetValue :=
  ((rows.map (fun r => rowGet r c)).dedup).map
    (fun v =>
      { value := v
        count := if v = .null then 0 else rows.countP (fun r => decide (rowGet r c = v)) })

/-- Embeds the `/api/facets` endpoint of app.py with its module-level
`_FACETS_CACHE` made an explicit state: the pair returned is
(response, new cache).  A populated cache is returned unconditionally; an
empty configured column list memoizes and returns the empty facet list;
otherwise the facets are computed from the table and memoized. -/
def get_facets (cache : Option (List Facet)) (facet_columns : List String)
    (rows : List Row) : List Facet × Option (List Facet) :=
  match cache with
  | some r => (r, some r)
  | none =>
    if facet_columns.isEmpty then ([], some [])
    else
      let fs := facet_columns.map (fun c => { column := c, values := facetCounts rows c })
      (fs, some fs)

/-- The `DatasetFormat` enum of data_indexing.py. -/
inductive DatasetFormat where
  | csv
  | jsonl
  | parquet
  | lance
deriving DecidableEq, Repr

/-- The `.value` string of a `DatasetFormat` member. -/
def formatValue : DatasetFormat → String
  | .csv => "csv"
  | .jsonl => "jsonl"
  | .parquet => "parquet"
  | .lance => "lance"

/-- Characters allowed in a URL scheme after the leading letter. -/
def isSchemeChar (c : Char) : Bool :=
  c.isAlphanum || c = '+' || c = '-' || c = '.'

/-- Models `urlparse(p).path if urlparse(p).scheme else p`: strip the
scheme and the authority (netloc) from a URL, keep a plain path unchanged.
Covers the location shapes the tool accepts (plain paths and
`scheme://netloc/path` URLs). -/
def urlPath (s : String) : String :=
  match breakOnSchemeSep s.data with
  | none => s
  | some (head, rest) =>
    if head ≠ [] ∧ head.all isSchemeChar ∧ (head.headD 'a').isAlpha then
      match splitOnChar '/' rest with
      | [] => ""
      | [_] => ""
      | _netloc :: segs => String.mk ('/' :: List.intercalate ['/'] segs)
    else s

/-- Non-empty segments of a POSIX path (`PurePosixPath` components). -/
def pathSegs (s : String) : List (List Char) :=
  (splitOnChar '/' s.data).filter (fun seg => seg ≠ [])

/-- `PurePosixPath(s).name`: the final path component (empty for a root or
empty path). -/
def pathName (s : String) : String :=
  String.mk ((pathSegs s).getLastD [])

/-- Name of `PurePosixPath(s).parent`: the next-to-last component. -/
def parentName (s : String) : String :=
  String.mk (((pathSegs s).dropLast).getLastD [])

/-- `PurePosixPath` suffix of a file name: the substring from the last dot,
unless that dot is leading or trailing. -/
def pathSuffix (name : String) : String :=
  let parts := splitOnChar '.' name.data
  if parts.length ≤ 1 then ""
  else
    let last := parts.getLastD []
    let stem := List.intercalate ['.'] parts.dropLast
    if stem = [] ∨ last = [] then "" else String.mk ('.' :: last)

/-- `PurePosixPath` stem of a file name: the name with its suffix removed. -/
def pathStem (name : String) : String :=
  let suf := pathSuffix name
  if suf = "" then name
  else String.mk (name.data.take (name.data.length - suf.data.length))

/-- Embeds `get_dataset_name` of data_indexing.py: strip any URL scheme,
fall back to the parent component when the final component carries a glob
wildcard, then return the stem when a suffix is present and the bare name
otherwise. -/
def get_dataset_name (dataset_path : String) : String :=
  let raw := urlPath dataset_path
  let n0 := pathName raw
  let n :=
    if n0.data.any (fun c => c = '*' ∨ c = '?' ∨ c = '[' ∨ c = ']') then parentName raw
    else n0
  if pathSuffix n ≠ "" then pathStem n else n

/-- Embeds `infer_format` of data_indexing.py: dispatch on the extension of
the final path component; an unknown extension (including none) raises. -/
def infer_format (dataset_path : String) : Except Err DatasetFormat :=
  let suf := pathSuffix (pathName (urlPath dataset_path))
  if suf = ".csv" ∨ suf = ".tsv" then .ok .csv
  else if suf = ".json" ∨ suf = ".jsonl" then .ok .jsonl
  else if suf = ".parquet" then .ok .parquet
  else if suf = ".lance" then .ok .lance
  else .error (.unsupportedFormat dataset_path)

/-- Embeds `_get_columns` of data_indexing.py.  The source works with
Python sets and returns `list(set)` in unspecified order, so the result is
a `Finset`.  An include list is validated against all columns (the error
carries the whole offending set), then replaces the working set; an
exclude list is validated against that working set and subtracted. -/
def getColumns (all_column : List String) (include_cols exclude_cols : Option (List String)) :
    Except Err (Finset String) :=
  let s0 := all_column.toFinset
  let step1 : Except Err (Finset String) :=
    match include_cols with
    | none => .ok s0
    | some inc =>
      let invalid := inc.toFinset \ s0
      if invalid = ∅ then .ok inc.toFinset else .error (.invalidInclude invalid)
  match step1 with
  | .error e => .error e
  | .ok s1 =>
    match exclude_cols with
    | none => .ok s1
    | some exc =>
      let invalid := exc.toFinset \ s1
      if invalid = ∅ then .ok (s1 \ exc.toFinset) else .error (.invalidExclude invalid)

/-- Source-touching effects of a streaming invocation, in order: resolving
the schema of a scanned file reads the source, and draining the batch
iterator reads its rows. -/
inductive IOEvent where
  | schemaRead
  | rowsRead
deriving DecidableEq, Repr

/-- The source file handed to the streamer: its column names and rows. -/
structure Dataset where
  columns : List String
  rows : List Row
deriving DecidableEq, Repr

/-- Rows grouped left to right into batches of at most `n` (the engine
rejects a zero chunk size; that degenerate case yields a single batch
here). -/
def chunks (n : Nat) (xs : List Row) : List (List Row) :=
  if n = 0 then (if xs.isEmpty then [] else [xs])
  else
    let acc :=
      xs.foldl
        (fun (acc : List (List Row) × List Row) x =>
          if acc.2.length + 1 = n then (acc.1 ++ [acc.2 ++ [x]], [])
          else (acc.1, acc.2 ++ [x]))
        ([], [])
    if acc.2.isEmpty then acc.1 else acc.1 ++ [acc.2]

/-- Embeds `_stream_dataset` of data_indexing.py, paired with the ordered
list of source I/O events performed before the function returns or raises.
A columnar (lance) source is rejected before any scan is set up; otherwise
the scan's schema is collected (one source read), columns are selected,
the limit / row-range mutual exclusivity is validated, the row window is
applied (the slice only when both endpoints are present), and the batches
are drained (the row read). -/
def streamDataset (src : Dataset) (dataset_format : DatasetFormat) (batch_size : Nat)
    (include_cols exclude_cols : Option (List String))
    (limit row_start row_end : Option Int) :
    List IOEvent × Except Err (List (List Row)) :=
  if dataset_format = .lance then ([], .error .unsupportedStreamFormat)
  else
    match getColumns src.columns include_cols exclude_cols with
    | .error e => ([.schemaRead], .error e)
    | .ok finalCols =>
      let projected := src.rows.map (fun r => r.filter (fun kv => decide (kv.1 ∈ finalCols)))
      if limit.isSome && (row_start.isSome || row_end.isSome) then
        ([.schemaRead], .error .conflictingWindow)
      else
        let sliced :=
          match row_start, row_end with
          | some a, some b => (projected.drop a.toNat).take (b - a).toNat
          | _, _ => projected
        let limited :=
          match limit with
          | some n => sliced.take n.toNat
          | none => sliced
        ([.schemaRead, .rowsRead], .ok (chunks batch_size limited))

/-- The `ViewArgs` configuration model (config.py), restricted to the
fields the indexing pipeline reads. -/
structure ViewArgs where
  dataset_path : Option String := none
  exclude_columns : Option (List String) := none
  include_columns : Option (List String) := none
  id_column : Option String := none
  /-- Modelled from the spec: `build_lance_index` reads `view_args.limit`
  but config.py's `ViewArgs` declares no such field; the spec's RowWindow
  (§3) makes the limit part of the view arguments, so it is modelled here
  as an optional int. -/
  limit : Option Int := none
  row_start : Option Int := none
  row_end : Option Int := none
  cache_path : Option String := none
deriving DecidableEq, Repr

/-- Deterministic cache key of a dataset:
`md5(f"{name}_{format.value}").hexdigest()`.  The md5 hex digest is
modelled as the digested string itself — determinism (same input, same
key) is preserved; digest collisions are not modelled. -/
def cacheKey (name : String) (fmt : DatasetFormat) : String :=
  name ++ "_" ++ formatValue fmt

/-- Embeds `build_lance_index` of data_indexing.py over an explicit cache
state (the set of table names in the lancedb cache directory).  Returns
the cache key, the new cache state, and whether the source was read
(ingestion happened).  A missing or empty dataset path and a missing cache
path raise; the key is computed from the dataset name and format; with
`reindex` false an existing table short-circuits without touching the
source; otherwise a non-lance source is drained through the streamer and a
lance source is copied directly, either way overwriting the table under
the key.  The scalar index and compaction steps mutate only the new table
and are not modelled. -/
def build_lance_index (view_args : ViewArgs) (reindex : Bool) (batch_size : Nat)
    (src : Dataset) (cache : Finset String) :
    Except Err (String × Finset String × Bool) :=
  match view_args.dataset_path with
  | none => .error .missingDatasetPath
  | some p =>
    if p = "" then .error .missingDatasetPath
    else
      match view_args.cache_path with
      | none => .error .missingCachePath
      | some _ =>
        match infer_format p with
        | .error e => .error e
        | .ok fmt =>
          let key := cacheKey (get_dataset_name p) fmt
          if !reindex && decide (key ∈ cache) then
            .ok (key, cache, false)
          else
            if fmt ≠ .lance then
              match
                (streamDataset src fmt batch_size view_args.include_columns
                  view_args.exclude_columns view_args.limit view_args.row_start
                  view_args.row_end).2
              with
              | .error e => .error e
              | .ok _ => .ok (key, insert key cache, true)
            else
              .ok (key, insert key cache, true)

/-- Fixture schema: every column has integer type. -/
def intSchema : String → Option DType := fun _ => some DType.integer

/-- Fixture schema: every column has boolean type. -/
def boolSchema : String → Option DType := fun _ => some DType.boolean

/-- Fixture row with integer column a = 1. -/
def rowA1 : Row := [("a", Scalar.int 1)]

/-- Fixture row with integer column a = 2. -/
def rowA2 : Row := [("a", Scalar.int 2)]

/-- Fixture row with integer column a = 3. -/
def rowA3 : Row := [("a", Scalar.int 3)]

/-- Fixture filter: a >= 2. -/
def fltGe2 : Filter := { column := "a", operator := .ge, value := .scalar (.int 2) }

/-- Translation of the fixture filter a >= 2. -/
def predGe2 : Pred := .cmp .ge "a" (.lit (.int 2))

/-- Fixture list-valued filter under a scalar operator (mismatched arity). -/
def fltGtList : Filter := { column := "a", operator := .gt, value := .list [.int 1, .int 2] }

/-- Fixture scalar-valued filter under a list operator (mismatched arity). -/
def fltInScalar : Filter := { column := "a", operator := .isin, value := .scalar (.int 1) }

/-- Fixture list-operator filter whose value is a list, for the coercion
claim. -/
def fltInList : Filter := { column := "b", operator := .isin, value := .list [.int 1, .int 2] }

/-- Fixture view arguments pointing at a CSV dataset. -/
def fixtureArgs : ViewArgs := { dataset_path := some "d.csv", cache_path := some "c" }

/-- Fixture source dataset with one column and one row. -/
def fixtureDataset : Dataset := { columns := ["a"], rows := [rowA1] }

/-!
### Theorems settling the claims
-/

theorem scalarLe_int (a b : Int) : scalarLe (.int a) (.int b) = decide (a ≤ b) := by
  simp only [scalarLe, scalarCmp, cmpVia]
  split_ifs with h1 h2 <;> simp <;> omega

/-- Claim C1, counterexample: translating a filter with mismatched
operator/value arity does NOT raise a hard error — a list value under the
scalar operator `>` and a scalar value under the list operator `in` both
make `get_filter` return Python `None` (`.ok none`), silently producing no
predicate. -/
theorem c1_counterexample :
    Filter.get_filter fltGtList intSchema false = .ok none ∧
    Filter.get_filter fltInScalar intSchema false = .ok none := by
  exact ⟨by decide, by decide⟩

/-- Claim C1, amended: for a filter on an existing column with a literal
value, a list value under a scalar operator and a scalar value under a
list operator both fall through the operator dispatch chains and return
Python `None` (no predicate, no error); only `between` with a list of
length other than two raises (an assertion error).  The source's trailing
`raise ValueError` branch is unreachable. -/
theorem c1_mismatched_arity_falls_through (f : Filter) (schema : String → Option DType)
    (t : DType) (h1 : schema f.column = some t) (h2 : f.is_column = false) :
    (∀ xs, f.value = .list xs → f.operator.isListOp = false →
      f.get_filter schema false = .ok none) ∧
    (∀ v, f.value = .scalar v → f.operator.isListOp = true →
      f.get_filter schema false = .ok none) ∧
    (∀ xs, f.value = .list xs → f.operator = .between → xs.length ≠ 2 →
      f.get_filter schema false = .error .betweenArity) := by
  refine ⟨?_, ?_, ?_⟩
  · intro xs hv hop
    simp only [Filter.get_filter, Filter.resolveValue, h1, h2, hv, Bool.false_eq_true,
      if_false, if_neg]
    cases hoper : f.operator <;> simp_all [Operator.isListOp]
  · intro v hv hop
    simp only [Filter.get_filter, Filter.resolveValue, h1, h2, hv, Bool.false_eq_true,
      if_false, if_neg]
    cases hoper : f.operator <;> simp_all [Operator.isListOp, scalarDispatch]
  · intro xs hv hop hlen
    simp only [Filter.get_filter, Filter.resolveValue, h1, h2, hv, hop, Bool.false_eq_true,
      if_false, if_neg]
    rcases xs with _ | ⟨a, _ | ⟨b, _ | ⟨c, rest⟩⟩⟩ <;> simp_all

/-- Claim C1, witness: the amended statement evaluated at concrete
mismatched filters. -/
theorem c1_witness :
    Filter.get_filter fltGtList intSchema false = .ok none ∧
    Filter.get_filter { column := "a", operator := .between, value := .list [.int 1, .int 2, .int 3] }
        intSchema false = .error .betweenArity := by
  refine ⟨?_, ?_⟩
  · exact (c1_mismatched_arity_falls_through fltGtList intSchema .integer rfl rfl).1
      [.int 1, .int 2] rfl rfl
  · exact (c1_mismatched_arity_falls_through
      { column := "a", operator := .between, value := .list [.int 1, .int 2, .int 3] }
      intSchema .integer rfl rfl).2.2 [.int 1, .int 2, .int 3] rfl rfl (by decide)

/-- Claim C3: a `between` filter with a two-element list value translates
to the inclusive range predicate, whose row semantics on an integer column
is `lo <= x AND x <= hi`; a list value whose length is not two fails with
the arity error. -/
theorem c3_between_semantics (c : String) (t : DType) (schema : String → Option DType)
    (lo hi x : Int) (r : Row) (xs : List Scalar)
    (h1 : schema c = some t) (h2 : rowGet r c = .int x) :
    Filter.get_filter { column := c, operator := .between, value := .list [.int lo, .int hi] }
        schema false
      = .ok (some (.between c (.int lo) (.int hi))) ∧
    evalPred (.between c (.int lo) (.int hi)) r = (decide (lo ≤ x) && decide (x ≤ hi)) ∧
    (xs.length ≠ 2 →
      Filter.get_filter { column := c, operator := .between, value := .list xs } schema false
        = .error .betweenArity) := by
  refine ⟨?_, ?_, ?_⟩
  · simp [Filter.get_filter, Filter.resolveValue, h1]
  · simp [evalPred, h2, scalarLe_int]
  · intro hlen
    simp only [Filter.get_filter, Filter.resolveValue, h1, Bool.false_eq_true, if_false, if_neg]
    rcases xs with _ | ⟨a, _ | ⟨b, _ | ⟨d, rest⟩⟩⟩ <;> simp_all

/-- Claim C3, witness: the between claim evaluated at the concrete filter
`10 <= a <= 20` and the row a = 15. -/
theorem c3_witness :
    Filter.get_filter { column := "a", operator := .between, value := .list [.int 10, .int 20] }
        intSchema false
      = .ok (some (.between "a" (.int 10) (.int 20))) ∧
    evalPred (.between "a" (.int 10) (.int 20)) [("a", Scalar.int 15)] = true := by
  have h := c3_between_semantics "a" .integer intSchema 10 20 15 [("a", Scalar.int 15)] [] rfl rfl
  exact ⟨h.1, by rw [h.2.1]; decide⟩

/-- Claim C9: with `coerce_types` true and a literal (non-column) value,
the value is stringified before coercion even when it is a list, so a
list-operator filter never sees a list any more: `get_filter` returns the
coercion outcome mapped to Python `None` (no predicate).  For a boolean
target column the coercion never raises: any string outside
case-insensitive true/1/yes coerces to false. -/
theorem c9_coercion_stringifies (f : Filter) (schema : String → Option DType) (t : DType)
    (h1 : schema f.column = some t) (h2 : f.is_column = false)
    (h3 : f.operator.isListOp = true) :
    Filter.get_filter f schema true
      = Except.map (fun _ => (none : Option Pred)) (coerceValue (pyStr f.value) t) ∧
    (∀ s : String, strLower s ∉ (["true", "1", "yes"] : List String) →
      coerceValue s .boolean = .ok (.bool false)) := by
  refine ⟨?_, ?_⟩
  · simp only [Filter.get_filter, Filter.resolveValue, h1, h2, Bool.false_eq_true, if_false,
      if_neg, if_true, if_pos]
    cases hc : coerceValue (pyStr f.value) t with
    | error e => simp [Except.map, hc]
    | ok v =>
      simp only [hc, Except.map, Except.map_ok]
      cases hoper : f.operator <;> simp_all [Operator.isListOp, scalarDispatch]
  · intro s hs
    simp only [coerceValue]
    congr 2
    simpa using hs

/-- Claim C9, witness: the coercion claim evaluated at a concrete
list-valued `in` filter against a boolean column, whose stringified value
coerces to false without error. -/
theorem c9_witness :
    Filter.get_filter fltInList boolSchema true
      = Except.map (fun _ => (none : Option Pred)) (coerceValue (pyStr fltInList.value) .boolean) ∧
    coerceValue "[1, 2]" .boolean = .ok (.bool false) := by
  refine ⟨(c9_coercion_stringifies fltInList boolSchema .boolean rfl rfl rfl).1, ?_⟩
  exact (c9_coercion_stringifies fltInList boolSchema .boolean rfl rfl rfl).2 "[1, 2]" (by decide)

/-- Claim C2: without a raw query, a successfully translated search returns
`totalRows` equal to the number of rows matching the conjunction of all
filters — counted before sort and pagination — and its data page is the
slice at positions `[page*pageSize, (page+1)*pageSize)` of the filtered,
sorted sequence. -/
theorem c2_search_pagination (req : SearchRequest) (rows : List Row)
    (schema : String → Option DType) (rawExec : String → List Row)
    (clauses : List (Option Pred)) (preds : List Pred)
    (h1 : req.raw_query = none)
    (h2 : translateFilters (req.filters.getD []) schema req.coerce_types = .ok clauses)
    (h3 : checkSortColumns (req.sorts.getD []) schema = .ok ())
    (h4 : forcePreds clauses = .ok preds) :
    search req rows schema rawExec
      = .ok
          (((applySorts (req.sorts.getD [])
                (rows.filter (fun r => preds.all (fun p => evalPred p r)))).drop
              (req.page * req.page_size).toNat).take req.page_size.toNat,
            (rows.filter (fun r => preds.all (fun p => evalPred p r))).length) := by
  unfold search
  rw [h1]
  simp only [strTruthy, Bool.false_eq_true, if_false, h2, h3, h4]
  rcases preds with _ | ⟨p, ps⟩ <;> simp [applySorts]

/-- Claim C2, witness: the pagination statement evaluated at a concrete
filtered request asking for page 1 of size 1. -/
theorem c2_witness :
    translateFilters [fltGe2] intSchema false = .ok [some predGe2] ∧
    forcePreds [some predGe2] = .ok [predGe2] ∧
    search { page := 1, page_size := 1, filters := some [fltGe2] }
        [rowA1, rowA2, rowA3] intSchema (fun _ => []) = .ok ([rowA3], 2) := by
  refine ⟨by decide, by decide, ?_⟩
  have h := c2_search_pagination
    { page := 1, page_size := 1, filters := some [fltGe2] }
    [rowA1, rowA2, rowA3] intSchema (fun _ => []) [some predGe2] [predGe2]
    rfl (by decide) rfl (by decide)
  exact h.trans (by decide)

/-- Claim C4, counterexample: a request whose `rawQuery` is present but
empty takes the structured path — its filters are applied and `totalRows`
is the filtered count (1), not the raw query's own row count (2). -/
theorem c4_counterexample :
    search { raw_query := some "",
             filters := some [{ column := "a", operator := .eq, value := .scalar (.int 1) }] }
        [rowA1, rowA2] intSchema (fun _ => [rowA1, rowA2])
      = .ok ([rowA1], 1) ∧
    ((fun _ : String => [rowA1, rowA2]) "").length = 2 := by
  exact ⟨by decide, by decide⟩

/-- Claim C4, amended: when `rawQuery` is present AND non-empty, the
structured filters, sorts and pagination are ignored entirely — the result
rows are exactly the raw query's rows and `totalRows` is that query's own
row count, whatever the other request fields hold. -/
theorem c4_raw_query_nonempty_bypasses (req : SearchRequest) (rows : List Row)
    (schema : String → Option DType) (rawExec : String → List Row) (q : String)
    (h1 : req.raw_query = some q) (h2 : q ≠ "") :
    search req rows schema rawExec = .ok (rawExec q, (rawExec q).length) := by
  unfold search
  rw [h1]
  simp [strTruthy, h2]

/-- Claim C4, witness: the amended statement evaluated at a concrete
non-empty raw query alongside structured fields that would change the
result if honoured. -/
theorem c4_witness :
    search { raw_query := some "q", page := 3, page_size := 1,
             filters := some [{ column := "a", operator := .eq, value := .scalar (.int 1) }] }
        [rowA1] intSchema (fun _ => [rowA1, rowA2, rowA3])
      = .ok ([rowA1, rowA2, rowA3], 3) := by
  have h := c4_raw_query_nonempty_bypasses
    { raw_query := some "q", page := 3, page_size := 1,
      filters := some [{ column := "a", operator := .eq, value := .scalar (.int 1) }] }
    [rowA1] intSchema (fun _ => [rowA1, rowA2, rowA3]) "q" rfl (by decide)
  exact h.trans (by decide)

/-- Claim C5: the facet computation is memoized process-wide — a populated
cache is returned as-is regardless of the underlying data, the first
computation populates the cache with its own result, a second call (on
possibly changed data) returns exactly the first result and cache, and an
empty configured-column list yields an empty facet list that is itself
memoized. -/
theorem c5_facets_memoized (cols : List String) (rows rows2 : List Row) (r : List Facet) :
    get_facets (some r) cols rows2 = (r, some r) ∧
    (get_facets none cols rows).2 = some (get_facets none cols rows).1 ∧
    get_facets ((get_facets none cols rows).2) cols rows2
      = ((get_facets none cols rows).1, (get_facets none cols rows).2) ∧
    get_facets none [] rows = ([], some []) := by
  refine ⟨rfl, ?_, ?_, rfl⟩
  · by_cases h : cols.isEmpty <;> simp [get_facets, h]
  · by_cases h : cols.isEmpty <;> simp [get_facets, h]

/-- Claim C6: with `forceReindex` false, a successful build leaves a cache
state containing the computed key, so a second build with the same
arguments returns the same key and the same cache state immediately, with
no source ingestion. -/
theorem c6_build_idempotent (view_args : ViewArgs) (batch_size : Nat) (src : Dataset)
    (cache : Finset String) (k : String) (s2 : Finset String) (b : Bool)
    (h : build_lance_index view_args false batch_size src cache = .ok (k, s2, b)) :
    build_lance_index view_args false batch_size src s2 = .ok (k, s2, false) := by
  unfold build_lance_index at h ⊢
  cases hdp : view_args.dataset_path with
  | none => exact absurd h (by simp [hdp])
  | some p =>
    rw [hdp] at h
    dsimp only at h ⊢
    by_cases hp : p = ""
    · rw [if_pos hp] at h; exact absurd h (by simp)
    · rw [if_neg hp] at h ⊢
      cases hcp : view_args.cache_path with
      | none => exact absurd h (by simp [hcp])
      | some cp =>
        rw [hcp] at h
        dsimp only at h ⊢
        cases hif : infer_format p with
        | error e => exact absurd h (by simp [hif])
        | ok fmt =>
          rw [hif] at h
          dsimp only at h ⊢
          by_cases hmem : cacheKey (get_dataset_name p) fmt ∈ cache
          · rw [if_pos (by simp [hmem])] at h
            simp only [Except.ok.injEq, Prod.mk.injEq] at h
            obtain ⟨hk, hs, hb⟩ := h
            subst hk; subst hs; subst hb
            simp [hmem]
          · rw [if_neg (by simp [hmem])] at h
            by_cases hl : fmt = DatasetFormat.lance
            · rw [if_neg (by simp [hl])] at h
              simp only [Except.ok.injEq, Prod.mk.injEq] at h
              obtain ⟨hk, hs, hb⟩ := h
              subst hk; subst hb
              have hmem2 : cacheKey (get_dataset_name p) fmt ∈ s2 :=
                hs ▸ Finset.mem_insert_self _ cache
              rw [if_pos (by simp [hmem2])]
            · rw [if_pos hl] at h
              cases hsd : (streamDataset src fmt batch_size view_args.include_columns
                  view_args.exclude_columns view_args.limit view_args.row_start
                  view_args.row_end).2 with
              | error e => rw [hsd] at h; exact absurd h (by simp)
              | ok batches =>
                rw [hsd] at h
                dsimp only at h
                simp only [Except.ok.injEq, Prod.mk.injEq] at h
                obtain ⟨hk, hs, hb⟩ := h
                subst hk; subst hb
                have hmem2 : cacheKey (get_dataset_name p) fmt ∈ s2 :=
                  hs ▸ Finset.mem_insert_self _ cache
                rw [if_pos (by simp [hmem2])]

/-- Claim C6, witness: building the fixture CSV dataset against an empty
cache ingests the source, and the second build under the same arguments
short-circuits on the now-present key without ingestion. -/
theorem c6_witness :
    build_lance_index fixtureArgs false 1 fixtureDataset ∅
      = .ok ("d_csv", {"d_csv"}, true) ∧
    build_lance_index fixtureArgs false 1 fixtureDataset {"d_csv"}
      = .ok ("d_csv", {"d_csv"}, false) := by
  refine ⟨by decide, ?_⟩
  exact c6_build_idempotent fixtureArgs 1 fixtureDataset ∅ "d_csv" {"d_csv"} true (by decide)

/-- Claim C7: column selection returns all columns when neither list is
given; an include list is validated against all columns (replacing the
working set on success) with a failure naming every offending entry; an
exclude list is validated against the include-restricted set and removed,
again with a failure naming every offending entry. -/
theorem c7_get_columns (all inc exc : List String) :
    (getColumns all none none = .ok all.toFinset) ∧
    (inc.toFinset \ all.toFinset = ∅ → getColumns all (some inc) none = .ok inc.toFinset) ∧
    (inc.toFinset \ all.toFinset ≠ ∅ →
      getColumns all (some inc) none
        = .error (.invalidInclude (inc.toFinset \ all.toFinset)) ∧
      getColumns all (some inc) (some exc)
        = .error (.invalidInclude (inc.toFinset \ all.toFinset))) ∧
    (inc.toFinset \ all.toFinset = ∅ → exc.toFinset \ inc.toFinset = ∅ →
      getColumns all (some inc) (some exc) = .ok (inc.toFinset \ exc.toFinset)) ∧
    (inc.toFinset \ all.toFinset = ∅ → exc.toFinset \ inc.toFinset ≠ ∅ →
      getColumns all (some inc) (some exc)
        = .error (.invalidExclude (exc.toFinset \ inc.toFinset))) := by
  refine ⟨rfl, ?_, ?_, ?_, ?_⟩
  · intro h; simp [getColumns, h]
  · intro h; exact ⟨by simp [getColumns, h], by simp [getColumns, h]⟩
  · intro h1 h2; simp [getColumns, h1, h2]
  · intro h1 h2; simp [getColumns, h1, h2]

/-- Claim C7, witness: selection evaluated on the spec's own vectors — a
missing include entry fails naming it, and no lists at all returns every
column. -/
theorem c7_witness :
    getColumns ["id", "name", "age"] (some ["name", "missing"]) none
      = .error (.invalidInclude (["name", "missing"].toFinset \ ["id", "name", "age"].toFinset)) ∧
    getColumns ["id", "name", "age"] none none = .ok (["id", "name", "age"].toFinset) := by
  constructor
  · exact ((c7_get_columns ["id", "name", "age"] ["name", "missing"] []).2.2.1 (by decide)).1
  · exact (c7_get_columns ["id", "name", "age"] [] []).1

/-- Claim C8, counterexample: a conflicting row window (limit together with
a row range) is rejected, but NOT before any source I/O — the schema-read
event has already happened when the error is raised (the scan's schema is
collected and columns are selected before the window validation). -/
theorem c8_counterexample :
    streamDataset fixtureDataset .csv 10 none none (some 5) (some 0) none
      = ([.schemaRead], .error .conflictingWindow) ∧
    ([IOEvent.schemaRead] : List IOEvent) ≠ [] := by
  exact ⟨by decide, by decide⟩

/-- Claim C8, amended: supplying both a limit and any row-range endpoint
makes streaming fail with the conflicting-window error before any row data
is read, though after the source's schema has been read (schema inference
I/O precedes the validation). -/
theorem c8_conflicting_window (src : Dataset) (dataset_format : DatasetFormat)
    (batch_size : Nat) (inc exc : Option (List String)) (cols : Finset String) (n : Int)
    (row_start row_end : Option Int)
    (h1 : dataset_format ≠ .lance)
    (h2 : getColumns src.columns inc exc = .ok cols)
    (h3 : row_start.isSome = true ∨ row_end.isSome = true) :
    streamDataset src dataset_format batch_size inc exc (some n) row_start row_end
      = ([.schemaRead], .error .conflictingWindow) := by
  have hor : (row_start.isSome || row_end.isSome) = true := by
    rcases h3 with h | h <;> simp [h]
  simp [streamDataset, h1, h2, hor]

/-- Claim C8, witness: the amended statement evaluated at a concrete
invocation carrying both a limit and a row start. -/
theorem c8_witness :
    streamDataset fixtureDataset .jsonl 10 none none (some 5) (some 0) none
      = ([.schemaRead], .error .conflictingWindow) := by
  exact c8_conflicting_window fixtureDataset .jsonl 10 none none ({"a"} : Finset String) 5
    (some 0) none (by decide) (by decide) (Or.inl rfl)

/-- Claim C10: a row window with only one endpoint and no limit is accepted
and ignored — streaming behaves exactly as if no window had been given (no
error, no slicing, full dataset). -/
theorem c10_partial_window_ignored (src : Dataset) (dataset_format : DatasetFormat)
    (batch_size : Nat) (inc exc : Option (List String)) (a b : Int) :
    streamDataset src dataset_format batch_size inc exc none (some a) none
      = streamDataset src dataset_format batch_size inc exc none none none ∧
    streamDataset src dataset_format batch_size inc exc none none (some b)
      = streamDataset src dataset_format batch_size inc exc none none none := by
  constructor <;>
  · unfold streamDataset
    by_cases hf : dataset_format = DatasetFormat.lance
    · simp [hf]
    · simp only [if_neg hf]
      cases hg : getColumns src.columns inc exc <;> simp

end DataViewer
